import Mathlib

/-!
Verification of the slide-deck generation pipeline (`src/main.py`).

The script turns a theme string into a slide deck: it asks a text-generation
service for markdown, parses the markdown into slide records (`parse_slides`),
requests or synthesizes two images per slide (`make_image`), writes a CSV
manifest per theme and tracks completed themes in a ledger file
(`processed_themes.txt`).

This file gives a shallow embedding of the relevant functions.  Pure string
processing (`parse_slides`, the theme classifier, ledger parsing) is translated
directly, character by character, from the Python source; effectful functions
(`make_image`, `generate_slides_text`, the per-theme driver loop in `main`) are
translated into total functions over explicit oracles that record the outcome
of each external effect (API key present?, service call outcome, file-save
outcomes, CSV write outcome).  Python strings are modelled as `String`/
`List Char`; `None` is modelled as `Option.none`.
-/

namespace DndPipeline

/-! ## Character and string utilities mirroring Python primitives -/

/-- Python whitespace as tested by `str.strip()` and the regex class `\s`
(restricted to the ASCII whitespace characters). -/
def isPyWs (c : Char) : Bool :=
  c = ' ' || c = '\t' || c = '\n' || c = '\r' || c = '\x0b' || c = '\x0c'

/-- Python `str.strip()` on a character list: drop whitespace from both ends. -/
def pyStrip (l : List Char) : List Char :=
  ((l.dropWhile isPyWs).reverse.dropWhile isPyWs).reverse

/-- Python `str.strip()` on a `String`. -/
def strTrim (s : String) : String := String.mk (pyStrip s.data)

/-- Python `md_block.split("---")`: split on each non-overlapping occurrence of
the three-dash separator, scanning left to right. -/
def splitDashes : List Char → List (List Char)
  | '-' :: '-' :: '-' :: rest => [] :: splitDashes rest
  | c :: rest =>
    match splitDashes rest with
    | [] => [[c]]
    | l :: ls => (c :: l) :: ls
  | [] => [[]]

/-- Python substring test `needle in hay` on character lists. -/
def containsSub (needle : List Char) : List Char → Bool
  | [] => needle.isEmpty
  | c :: t => needle.isPrefixOf (c :: t) || containsSub needle t

/-! ## The slide parser (`parse_slides`, src/main.py lines 187-242) -/

/-- One parsed slide, the dictionary built at src/main.py lines 231-236. -/
structure SlideRec where
  slide_number : Nat
  month_or_title : String
  visual_prompt : String
  slide_text : String
deriving Repr, DecidableEq

/-- Does the chunk start, at this position, with the case-insensitive literal
`**visual:**` of the regex `\*\*visual:\*\*\s*(.*)` (re.IGNORECASE)? -/
def markerAt (cs : List Char) : Bool :=
  (cs.take 11).map Char.toLower == "**visual:**".data

/-- Search for the first match of `\*\*visual:\*\*\s*(.*)` (re.IGNORECASE).
Returns `(group 1, text after the match end)`: after the literal marker the
greedy `\s*` consumes the maximal whitespace run (newlines included) and
`(.*)` captures up to the next newline (`.` does not match `\n`). -/
def findVisual : List Char → Option (List Char × List Char)
  | [] => none
  | c :: cs =>
    if markerAt (c :: cs) then
      let r1 := ((c :: cs).drop 11).dropWhile isPyWs
      let g1 := r1.takeWhile (fun ch => ch ≠ '\n')
      some (g1, r1.dropWhile (fun ch => ch ≠ '\n'))
    else
      findVisual cs

/-- Scan for the lazy `.*?\*\*` of the cleanup regex: find the first `**` with
no intervening newline; return the text before it and the text after it. -/
def boldCloseSplit : List Char → Option (List Char × List Char)
  | '*' :: '*' :: rest => some ([], rest)
  | '\n' :: _ => none
  | c :: rest => (boldCloseSplit rest).map (fun p => (c :: p.1, p.2))
  | [] => none

/-- The cleanup `re.sub(r"^\s*\*\*.*?\*\*\s*\n?", "", slide_text_block)`
(src/main.py line 220) applied to an already-stripped block: at most one
leading bold-wrapped segment, together with the whitespace run following it,
is removed.  (`^` is unanchored to line starts, so the substitution can only
happen at position 0; the block was stripped, so `^\s*` is empty.) -/
def stripLeadBold (block : List Char) : List Char :=
  match block with
  | '*' :: '*' :: rest =>
    match boldCloseSplit rest with
    | some p => p.2.dropWhile isPyWs
    | none => block
  | _ => block

/-- Try to match `Slide \d+ – \*\*(.*?)\*\*` (src/main.py line 223) at this
exact position; on success return capture group 1. -/
def slideHeaderAt (cs : List Char) : Option (List Char) :=
  if "Slide ".data.isPrefixOf cs then
    let r := cs.drop 6
    let ds := r.takeWhile Char.isDigit
    if ds = [] then none
    else
      let r2 := r.drop ds.length
      if " – ".data.isPrefixOf r2 then
        let r3 := r2.drop 3
        if "**".data.isPrefixOf r3 then
          (boldCloseSplit (r3.drop 2)).map (fun p => p.1)
        else none
      else none
  else none

/-- `re.search(r"Slide \d+ – \*\*(.*?)\*\*", chunk)`: leftmost match wins. -/
def findSlideLabel : List Char → Option (List Char)
  | [] => none
  | c :: cs =>
    match slideHeaderAt (c :: cs) with
    | some l => some l
    | none => findSlideLabel cs

/-- The body of the `for i, chunk in enumerate(chunks)` loop of `parse_slides`
for a single chunk: extract the visual prompt, derive the slide text, look up
the header label, and drop the chunk when the marker is missing or the
remaining slide text is empty.  The record's `slide_number` is `i + 1` where
`i` is the chunk's position in the original chunk list. -/
def processChunk (i : Nat) (chunk : List Char) : Option SlideRec :=
  match findVisual chunk with
  | none => none
  | some (g1, rest) =>
    let visual_prompt := String.mk (pyStrip g1)
    let block0 := pyStrip rest
    let slide_text := pyStrip (stripLeadBold block0)
    let month_or_title :=
      match findSlideLabel chunk with
      | some l => String.mk (pyStrip l)
      | none => "Slide_" ++ toString (i + 1)
    if slide_text = [] then none
    else some ⟨i + 1, month_or_title, visual_prompt, String.mk slide_text⟩

/-- `chunks = [chunk.strip() for chunk in md_block.split("---") if chunk.strip()]`. -/
def chunkify (md : String) : List (List Char) :=
  ((splitDashes md.data).map pyStrip).filter (fun c => c ≠ [])

/-- The chunk loop: stop (`break`) as soon as the index reaches the expected
slide count, skip (`continue`) chunks that produce no record. -/
def parseLoop (expected : Nat) : Nat → List (List Char) → List SlideRec
  | _, [] => []
  | i, c :: rest =>
    if expected ≤ i then []
    else
      match processChunk i c with
      | none => parseLoop expected (i + 1) rest
      | some r => r :: parseLoop expected (i + 1) rest

/-- `parse_slides(md_block, expected_slides)` (src/main.py lines 187-242). -/
def parse_slides (md : String) (expected : Nat) : List SlideRec :=
  parseLoop expected 0 (chunkify md)

/-! ## Theme classification (src/main.py lines 96-117 and 666-673) -/

/-- The slide-count target chosen inside `generate_slides_text`
(src/main.py lines 96-117): month themes get 13 slides, class themes 14,
anything else 13. -/
def slide_count_target (theme : String) : Nat :=
  let theme_lower := theme.data.map Char.toLower
  if containsSub "month".data theme_lower || containsSub "birth month".data theme_lower then 13
  else if containsSub "class".data theme_lower || containsSub "classes".data theme_lower then 14
  else 13

/-- The expected slide count computed in the main loop to bound parsing
(src/main.py lines 666-673), a second copy of the keyword logic. -/
def expected_slides_main (theme : String) : Nat :=
  let theme_lower_main := theme.data.map Char.toLower
  if containsSub "month".data theme_lower_main || containsSub "birth month".data theme_lower_main then 13
  else if containsSub "class".data theme_lower_main || containsSub "classes".data theme_lower_main then 14
  else 13

/-- The classification exactly as the specification words it: case-insensitive
substring match, theme containing "month" gives 13 slides, else containing
"class" gives 14, else 13.  Stated from the spec for the refinement claim. -/
def classifySpec (theme : String) : Nat :=
  let tl := theme.data.map Char.toLower
  if containsSub "month".data tl then 13
  else if containsSub "class".data tl then 14
  else 13

/-! ## Image generation (`make_image`, src/main.py lines 247-381)

`make_image` is effectful; it is embedded as a total function over an oracle
`ImgEnv` recording the outcome of every external effect it performs:

* `apiKey`     — whether `OPENAI_API_KEY` is set (selects the branch);
* `fancyStage` — how far the text-rendering placeholder attempt got before an
  exception: `0` = failed before saving v1, `1` = saved v1 then failed before
  saving v2, `2` = saved both (no exception);
* `basicV1`, `basicV2` — whether the basic 300x450 fallback saves succeed;
* `api`        — the outcome of `openai.images.generate`: an exception
  (`BadRequestError` and the generic handler act identically), or a response
  whose i-th image's decode-and-save step succeeds or fails per `List Bool`.

A Python return value `str` is `some`, Python `None` is `none`. -/

/-- Outcome of the external image-generation call. -/
inductive ApiResult where
  | raised : ApiResult
  | ok : List Bool → ApiResult
deriving Repr, DecidableEq

/-- Effect oracle for one `make_image` call. -/
structure ImgEnv where
  apiKey : Bool
  fancyStage : Nat
  basicV1 : Bool
  basicV2 : Bool
  api : ApiResult
deriving Repr, DecidableEq

/-- The failure sentinel string of `make_image`. -/
def IMG_GEN_FAILED : String := "IMG_GEN_FAILED"

/-- `str(img_dir / f"{out_name}_v1.png")`. -/
def v1Path (out_name : String) : String := "images/" ++ out_name ++ "_v1.png"

/-- `str(img_dir / f"{out_name}_v2.png")`. -/
def v2Path (out_name : String) : String := "images/" ++ out_name ++ "_v2.png"

/-- `make_image(theme, visual, slide_text, out_name)` (src/main.py 247-381).

No key: the text-rendering attempt saves both placeholders (stage 2) or fails
partway, after which each basic fallback save is tried independently; a
variable never assigned stays `None` (src/main.py 258-305).  With a key: an
exception from the API call yields the sentinel pair; otherwise
`generated_paths` collects a path or the sentinel per response image, and the
return slots are `generated_paths[0]`/`[1]` with the sentinel supplied for
missing entries (src/main.py 339-381). -/
def make_image (env : ImgEnv) (theme visual slide_text out_name : String) :
    Option String × Option String :=
  if env.apiKey = false then
    if 2 ≤ env.fancyStage then (some (v1Path out_name), some (v2Path out_name))
    else
      ((if 1 ≤ env.fancyStage ∨ env.basicV1 = true then some (v1Path out_name) else none),
       (if env.basicV2 = true then some (v2Path out_name) else none))
  else
    match env.api with
    | ApiResult.raised => (some IMG_GEN_FAILED, some IMG_GEN_FAILED)
    | ApiResult.ok saves =>
      let generated : List String :=
        saves.enum.map (fun p =>
          if p.2 = true then (if p.1 = 0 then v1Path out_name else v2Path out_name)
          else IMG_GEN_FAILED)
      let path1 := generated.getD 0 IMG_GEN_FAILED
      let path2 := generated.getD 1 IMG_GEN_FAILED
      let path2 := if generated.length = 1 then IMG_GEN_FAILED else path2
      (some path1, some path2)

/-! ## Text generation (`generate_slides_text`, src/main.py lines 83-183)

When the key is set and the chat call raises, the handler calls
`generate_slides_text(theme, host)` again (src/main.py line 183).  The
recursion is embedded with a fuel parameter: `none` at fuel `0` means the
computation is still running after that many self-calls, so a result of
`none` for every fuel value is exactly non-termination.  The service oracle
maps the attempt number to the call's outcome (`none` = exception). -/

/-- The apostrophe character, used in the placeholder markdown literals. -/
def apos : Char := Char.ofNat 39

/-- The twelve month names used by the placeholder generator. -/
def placeholderMonths : List String :=
  ["January", "February", "March", "April", "May", "June", "July", "August",
   "September", "October", "November", "December"]

/-- The placeholder markdown built when no API key is present (src/main.py
lines 86-91).  Line 88 is a plain string literal, not an f-string, so the text
`{host}` appears verbatim. -/
def placeholder_md : String :=
  let instr := "**The slide should have this exact text (don" ++ String.mk [apos] ++
    "t add any other text):**\n"
  let header := "### 🏷️ **Slide 1 – Title Card**\n**visual:** Placeholder visual for title featuring {host}\n"
    ++ instr ++ "Placeholder Title\n*Placeholder subtitle*\n\n---\n\n"
  placeholderMonths.enum.foldl
    (fun acc p =>
      acc ++ "### 💀 **Slide " ++ toString (p.1 + 2) ++ " – " ++ p.2 ++ "**\n**visual:** Placeholder visual for "
        ++ p.2 ++ "\n" ++ instr ++ "**" ++ p.2 ++ " – Placeholder Item**\n*Placeholder detail*\n\n---\n\n")
    header

/-- `generate_slides_text(theme, host)` over fuel: `svc attempt` is the chat
API outcome of the `attempt`-th invocation; on an exception the function calls
itself again with the same arguments. -/
def generate_slides_text (key : Bool) (svc : Nat → Option String)
    (theme host : String) : Nat → Nat → Option String
  | 0, _ => none
  | Nat.succ fuel, attempt =>
    if key = false then some placeholder_md
    else
      match svc attempt with
      | some txt => some txt
      | none => generate_slides_text key svc theme host fuel (attempt + 1)

/-! ## The per-theme driver (`main`, src/main.py lines 619-816)

The loop body for one theme is embedded over a `ThemeEnv` oracle:

* `textGen` — the result of `generate_slides_text`: `none` if it raised
  (caught at src/main.py 657-660), otherwise the returned markdown;
* `slideEnv i` — the effect oracle for the `i`-th parsed slide: the
  `make_image` oracle plus whether an unexpected exception was caught by the
  per-slide handler (src/main.py 759-764), which overwrites both slots with
  the sentinel;
* `csvOk` — whether the manifest CSV write succeeded (src/main.py 789-799).
  An exception at any earlier point of the outer `try` also prevents the CSV
  write from succeeding, so `csvOk = false` covers the outer error path too.

Google Drive uploads are elided: they are logged best-effort and change none
of the modelled state (src/main.py 729-756). -/

/-- One row of the per-theme manifest CSV (src/main.py lines 766-775); the
image columns hold the path, `"GENERATION_FAILED"` in place of the sentinel,
or `none` when the Python variable held `None`. -/
structure ManifestRow where
  theme : String
  slide_number : Nat
  month_or_title : String
  visual_prompt : String
  slide_text : String
  image_file_v1 : Option String
  image_file_v2 : Option String
deriving Repr, DecidableEq

/-- Effect oracle for one slide of the loop. -/
structure SlideEnv where
  imgEnv : ImgEnv
  unexpectedErr : Bool
deriving Repr

/-- Effect oracle for one theme of the batch loop. -/
structure ThemeEnv where
  textGen : Option String
  slideEnv : Nat → SlideEnv
  csvOk : Bool

/-- `re.sub(r'[\\\\/*?:"<>|]', "", ...)` forbidden characters. -/
def forbiddenChar (c : Char) : Bool :=
  c = '\\' || c = '/' || c = '*' || c = '?' || c = ':' || c = '"' || c = '<' || c = '>' || c = '|'

/-- Filename sanitization: remove forbidden characters, then replace spaces
with underscores (src/main.py line 708). -/
def sanitizeName (l : List Char) : List Char :=
  (l.filter (fun c => !forbiddenChar c)).map (fun c => if c = ' ' then '_' else c)

/-- Python `f"{n:02d}"` for the slide numbers in play. -/
def twoDigit (n : Nat) : String := if n < 10 then "0" ++ toString n else toString n

/-- `filename_base = f"{slide_num:02d}_{safe_slide_title}"` with the empty-title
fallback (src/main.py lines 708-711). -/
def filenameBase (r : SlideRec) : String :=
  let safe := sanitizeName r.month_or_title.data
  let safe := if safe = [] then ("Slide_" ++ toString r.slide_number ++ "_Title").data else safe
  twoDigit r.slide_number ++ "_" ++ String.mk safe

/-- The image slots recorded for one slide: both sentinels when the per-slide
handler caught an unexpected exception, else the `make_image` result. -/
def slideSlots (env : ThemeEnv) (theme : String) (p : Nat × SlideRec) :
    Option String × Option String :=
  let se := env.slideEnv p.1
  if se.unexpectedErr = true then (some IMG_GEN_FAILED, some IMG_GEN_FAILED)
  else make_image se.imgEnv theme p.2.visual_prompt p.2.slide_text (filenameBase p.2)

/-- `local_image_path if local_image_path != "IMG_GEN_FAILED" else
"GENERATION_FAILED"` (src/main.py lines 773-774). -/
def rowImageField (slot : Option String) : Option String :=
  if slot = some IMG_GEN_FAILED then some "GENERATION_FAILED" else slot

/-- The manifest row appended for one slide (src/main.py lines 767-775). -/
def mkRow (theme : String) (r : SlideRec) (slots : Option String × Option String) :
    ManifestRow :=
  ⟨theme, r.slide_number, r.month_or_title, r.visual_prompt, r.slide_text,
    rowImageField slots.1, rowImageField slots.2⟩

/-- All manifest rows of one theme. -/
def themeRows (env : ThemeEnv) (theme : String) (slides : List SlideRec) :
    List ManifestRow :=
  slides.enum.map (fun p => mkRow theme p.2 (slideSlots env theme p))

/-- `any_slide_failed`: set when a slot equals the sentinel (src/main.py lines
722-727) or an unexpected per-slide exception forced the sentinels. -/
def anySlideFailed (env : ThemeEnv) (theme : String) (slides : List SlideRec) : Bool :=
  slides.enum.any (fun p =>
    (slideSlots env theme p).1 = some IMG_GEN_FAILED ||
    (slideSlots env theme p).2 = some IMG_GEN_FAILED)

/-- One iteration of the theme loop (src/main.py lines 619-816): returns the
final `theme_successfully_processed` flag and the manifest rows.  Empty or
failed text generation and an empty parse `continue` to the next theme with
the flag effectively false (the theme is not marked); otherwise the flag is
true iff the CSV write succeeded and no slide set `any_slide_failed`. -/
def processTheme (env : ThemeEnv) (theme : String) : Bool × List ManifestRow :=
  match env.textGen with
  | none => (false, [])
  | some md =>
    if md = "" then (false, [])
    else
      let slides := parse_slides md (expected_slides_main theme)
      if slides = [] then (false, [])
      else (env.csvOk && !anySlideFailed env theme slides, themeRows env theme slides)

/-! ## The processed-themes ledger (src/main.py lines 497-549) -/

/-- Split a file's contents into lines as Python's text-mode line iteration
with universal newlines does (the ledger is opened with `newline=None`,
src/main.py line 504): a line ends at `'\r\n'`, at a bare `'\r'`, or at a
bare `'\n'`; the terminator is consumed and a final unterminated line is
kept. -/
def splitNL : List Char → List (List Char)
  | [] => [[]]
  | '\r' :: '\n' :: rest => [] :: splitNL rest
  | '\r' :: rest => [] :: splitNL rest
  | '\n' :: rest => [] :: splitNL rest
  | c :: rest =>
    match splitNL rest with
    | [] => [[c]]
    | l :: ls => (c :: l) :: ls

/-- `load_processed_themes()` (src/main.py lines 499-510): the set of stripped
lines of `processed_themes.txt`, read in universal-newlines mode, here as a
list whose membership is consulted. -/
def load_processed_themes (file : String) : List String :=
  (splitNL file.data).map (fun l => String.mk (pyStrip l))

/-- `mark_theme_as_processed(theme)` (src/main.py lines 512-519): append the
theme and a newline to the ledger file.  (The text-mode write may encode the
terminator as the platform line separator; `file` models the decoded stream
that universal-newlines reading yields back, where it is `'\n'` again.) -/
def mark_theme_as_processed (file theme : String) : String :=
  file ++ theme ++ "\n"

/-- Marking every theme of a list in order, as a fully successful batch run
does (src/main.py lines 810-811). -/
def markAll (file : String) : List String → String
  | [] => file
  | t :: ts => markAll (mark_theme_as_processed file t) ts

/-- The themes read from the input manifest: each row's `Theme` value is
stripped and empty results are dropped (src/main.py line 540). -/
def csvThemes (rows : List String) : List String :=
  (rows.map strTrim).filter (fun t => t ≠ "")

/-- `themes_to_process` (src/main.py line 542): the manifest themes not yet in
the processed set. -/
def selectThemes (rows : List String) (processed : List String) : List String :=
  (csvThemes rows).filter (fun t => decide (t ∉ processed))

/-- The ledger after one theme of the loop: appended exactly when the
`theme_successfully_processed` flag is set (src/main.py lines 810-811). -/
def themeLedgerAfter (env : ThemeEnv) (theme : String) (file : String) : String :=
  if (processTheme env theme).1 = true then mark_theme_as_processed file theme else file

/-! ## Derived predicates and concrete inputs used by the theorems -/

/-- A chunk that survives parsing: it has the visual marker and non-empty
slide text after the cleanup.  (Independent of the chunk's index.) -/
def chunkOk (c : List Char) : Bool := (processChunk 0 c).isSome

/-- A value `make_image` may legitimately return for a slot according to the
specification: a concrete image path for this `out_name`, or the sentinel. -/
def pathOrSentinel (out_name : String) (r : Option String) : Prop :=
  r = some (v1Path out_name) ∨ r = some (v2Path out_name) ∨ r = some IMG_GEN_FAILED

/-- Raw text with three chunks; the middle one lacks the visual marker. -/
def mdC1 : String :=
  "**visual:** First visual\nFirst text\n---\nno marker here\n---\n**visual:** Third visual\nThird text"

/-- First chunk of `mdC1`. -/
def c1chunk1 : List Char := "**visual:** First visual\nFirst text".data

/-- Second chunk of `mdC1` (no visual marker). -/
def c1chunk2 : List Char := "no marker here".data

/-- Third chunk of `mdC1`. -/
def c1chunk3 : List Char := "**visual:** Third visual\nThird text".data

/-- The end-to-end scenario raw text of the specification: chunk 1 is
`### Slide 1` + visual line + bold title + italic subtitle, chunk 2 is
malformed. -/
def mdC2 : String :=
  "### Slide 1\n**visual:** A lantern glows.\n**Title**\n*Subtitle*\n---\nThis chunk is malformed."

/-- Two chunks whose first lacks the visual marker. -/
def mdC5bad : String := "no marker\n---\n**visual:** X\nY"

/-- Two well-formed chunks. -/
def mdC5 : String := "**visual:** A\nTextA\n---\n**visual:** B\nTextB"

/-- Effect oracle with no API key where the text-rendering placeholder fails
immediately and both basic fallback saves fail as well. -/
def envC3bad : ImgEnv := ⟨false, 0, false, false, ApiResult.raised⟩

/-- Effect oracle with an API key and a fully successful image call. -/
def envC3ok : ImgEnv := ⟨true, 0, false, false, ApiResult.ok [true, true]⟩

/-- Theme oracle for a fully successful run: text generation returned `mdC5`,
every placeholder render succeeds, the CSV write succeeds. -/
def envC4 : ThemeEnv := ⟨some mdC5, fun _ => ⟨⟨false, 2, true, true, ApiResult.raised⟩, false⟩, true⟩

/-- Theme oracle where every slide's placeholder rendering fails completely
(no API key, all saves fail), and the CSV write succeeds. -/
def envC9 : ThemeEnv := ⟨some mdC5, fun _ => ⟨envC3bad, false⟩, true⟩

/-! # Theorems

## Parser structure lemmas -/

theorem parseLoop_eq (expected : Nat) :
    ∀ (cs : List (List Char)) (i : Nat),
      parseLoop expected i cs =
        (List.enumFrom i (cs.take (expected - i))).filterMap
          (fun p => processChunk p.1 p.2)
  | [], i => by simp [parseLoop]
  | c :: rest, i => by
    by_cases h : expected ≤ i
    · have h0 : expected - i = 0 := Nat.sub_eq_zero_of_le h
      simp [parseLoop, h, h0]
    · have h1 : 0 < expected - i := by omega
      have h2 : expected - i - 1 = expected - (i + 1) := by omega
      have ihr := parseLoop_eq expected rest (i + 1)
      rw [List.take_cons h1, h2, List.enumFrom_cons, List.filterMap_cons]
      cases hpc : processChunk i c <;> simp [parseLoop, h, hpc, ihr]

theorem parse_slides_eq (md : String) (expected : Nat) :
    parse_slides md expected =
      (List.enumFrom 0 ((chunkify md).take expected)).filterMap
        (fun p => processChunk p.1 p.2) := by
  have h := parseLoop_eq expected (chunkify md) 0
  simpa [parse_slides] using h

theorem processChunk_isSome (i : Nat) (c : List Char) :
    (processChunk i c).isSome = chunkOk c := by
  unfold chunkOk processChunk
  cases hfv : findVisual c with
  | none => simp
  | some pr =>
    obtain ⟨g1, rest⟩ := pr
    by_cases hb : pyStrip (stripLeadBold (pyStrip rest)) = [] <;> simp [hb]

theorem processChunk_slide_number (i : Nat) (c : List Char) (r : SlideRec)
    (h : processChunk i c = some r) : r.slide_number = i + 1 := by
  unfold processChunk at h
  cases hfv : findVisual c with
  | none => rw [hfv] at h; exact absurd h (by simp)
  | some pr =>
    obtain ⟨g1, rest⟩ := pr
    rw [hfv] at h
    by_cases hb : pyStrip (stripLeadBold (pyStrip rest)) = []
    · simp [hb] at h
    · simp [hb] at h
      rw [← h]

theorem processChunk_none_of_noVisual (i : Nat) (c : List Char)
    (h : findVisual c = none) : processChunk i c = none := by
  simp [processChunk, h]

theorem processChunk_none_of_emptyText (i : Nat) (c g1 rest : List Char)
    (hv : findVisual c = some (g1, rest))
    (he : pyStrip (stripLeadBold (pyStrip rest)) = []) :
    processChunk i c = none := by
  simp [processChunk, hv, he]

theorem filterMap_length_of_allOk :
    ∀ (cs : List (List Char)) (i : Nat), (∀ c ∈ cs, chunkOk c = true) →
      ((List.enumFrom i cs).filterMap (fun p => processChunk p.1 p.2)).length = cs.length
  | [], _, _ => by simp
  | c :: rest, i, h => by
    obtain ⟨r, hr⟩ : ∃ r, processChunk i c = some r := by
      rw [← Option.isSome_iff_exists, processChunk_isSome]
      exact h c (by simp)
    have ihr := filterMap_length_of_allOk rest (i + 1) (fun d hd => h d (by simp [hd]))
    simp [List.enumFrom_cons, List.filterMap_cons, hr, ihr]

/-! ## Claim C6 -/

/-- C6: `parse_slides` is a pure total function of its two arguments.  For
every input string and expected count it returns the list of records obtained
from the first `expected` chunks in order; a chunk without the visual marker,
or whose display text is empty after stripping, produces no record and is
skipped without affecting the other chunks. -/
theorem c6_parse_total_and_skips :
    (∀ (md : String) (expected : Nat),
      parse_slides md expected =
        (List.enumFrom 0 ((chunkify md).take expected)).filterMap
          (fun p => processChunk p.1 p.2))
    ∧ (∀ (i : Nat) (c : List Char), findVisual c = none → processChunk i c = none)
    ∧ (∀ (i : Nat) (c g1 rest : List Char),
        findVisual c = some (g1, rest) → pyStrip (stripLeadBold (pyStrip rest)) = [] →
        processChunk i c = none) :=
  ⟨parse_slides_eq, processChunk_none_of_noVisual, processChunk_none_of_emptyText⟩

/-- Witness for C6: the skip clauses applied at concrete chunks. -/
theorem c6_witness :
    processChunk 0 "no marker at all".data = none
    ∧ processChunk 0 "**visual:** v".data = none :=
  ⟨c6_parse_total_and_skips.2.1 0 "no marker at all".data (by decide),
   c6_parse_total_and_skips.2.2 0 "**visual:** v".data "v".data [] (by decide) (by decide)⟩

/-! ## Claim C1 -/

/-- C1 counterexample: for `mdC1`, which splits into three chunks where chunks
1 and 3 are valid and chunk 2 lacks the visual marker, `parse_slides` with
expected count 3 returns ordinals 1 and 3, not the claimed 1 and 2. -/
theorem c1_counterexample :
    (chunkify mdC1).length = 3
    ∧ findVisual ((chunkify mdC1).getD 1 []) = none
    ∧ chunkOk ((chunkify mdC1).getD 0 []) = true
    ∧ chunkOk ((chunkify mdC1).getD 2 []) = true
    ∧ (parse_slides mdC1 3).map (fun r => r.slide_number) ≠ [1, 2] := by
  decide

/-- C1 (amended): for every raw block splitting into exactly three non-empty
chunks where chunks 1 and 3 are valid and chunk 2 lacks the visual marker,
`parse_slides` (expected count ≥ 3) returns exactly 2 records whose ordinals
are 1 and 3: ordinals come from the original chunk position (`i + 1`), with
skipped chunks still consuming their slot, not renumbered consecutively. -/
theorem c1_ordinals_follow_chunk_position
    (md : String) (n : Nat) (c1 c2 c3 : List Char)
    (hch : chunkify md = [c1, c2, c3]) (hn : 3 ≤ n)
    (h1 : chunkOk c1 = true) (h2 : findVisual c2 = none) (h3 : chunkOk c3 = true) :
    (parse_slides md n).length = 2
    ∧ (parse_slides md n).map (fun r => r.slide_number) = [1, 3] := by
  have h0' : ¬ n ≤ 0 := by omega
  have h1' : ¬ n ≤ 1 := by omega
  have h2' : ¬ n ≤ 2 := by omega
  obtain ⟨r1, hr1⟩ : ∃ r, processChunk 0 c1 = some r := by
    rw [← Option.isSome_iff_exists, processChunk_isSome]; exact h1
  obtain ⟨r3, hr3⟩ : ∃ r, processChunk 2 c3 = some r := by
    rw [← Option.isSome_iff_exists, processChunk_isSome]; exact h3
  have hc2 : processChunk 1 c2 = none := processChunk_none_of_noVisual 1 c2 h2
  have hps : parse_slides md n = [r1, r3] := by
    simp [parse_slides, hch, parseLoop, h0', h1', h2', hr1, hr3, hc2]
  rw [hps]
  simp [processChunk_slide_number 0 c1 r1 hr1, processChunk_slide_number 2 c3 r3 hr3]

/-- Witness for C1: the amended theorem applied to `mdC1`. -/
theorem c1_witness :
    (parse_slides mdC1 3).length = 2
    ∧ (parse_slides mdC1 3).map (fun r => r.slide_number) = [1, 3] :=
  c1_ordinals_follow_chunk_position mdC1 3 c1chunk1 c1chunk2 c1chunk3
    (by decide) (by decide) (by decide) (by decide) (by decide)

/-! ## Claim C2 -/

/-- C2 counterexample: on the specification's end-to-end scenario input, the
single returned record's display text is just `*Subtitle*`: the `**Title**`
line was stripped even though no instructional marker line was present. -/
theorem c2_counterexample :
    (parse_slides mdC2 13).map (fun r => r.slide_text) = ["*Subtitle*"]
    ∧ containsSub "**Title**".data "*Subtitle*".data = false := by
  decide

/-- C2 (amended): for the scenario raw text `mdC2`, `parse_slides` returns
exactly one record with ordinal 1 and visual description
"A lantern glows.", but its display text is only `*Subtitle*`: the cleanup
strips at most one leading bold-wrapped line whether or not it is the
instructional marker, so the `**Title**` line is removed here. -/
theorem c2_scenario_title_line_stripped :
    parse_slides mdC2 13 = [⟨1, "Slide_1", "A lantern glows.", "*Subtitle*"⟩] := by
  decide

/-! ## Claim C5 -/

/-- C5 counterexample: `mdC5bad` splits into two chunks, more than the
expected count 1, yet `parse_slides` returns 0 records (the first chunk is
invalid and is not replaced by the later valid chunk), not exactly 1. -/
theorem c5_counterexample :
    1 < (chunkify mdC5bad).length
    ∧ (parse_slides mdC5bad 1).length ≠ 1 := by
  decide

/-- C5 (amended): for every raw block splitting into more non-empty chunks
than the expected count, `parse_slides` considers only the first
expected-count chunks in encounter order and discards all chunks beyond the
expected count; it returns exactly expected-count records when each of those
first chunks is valid (visual marker present, non-empty display text). -/
theorem c5_truncates_at_expected (md : String) (n : Nat)
    (hlen : n < (chunkify md).length)
    (hok : ∀ c ∈ (chunkify md).take n, chunkOk c = true) :
    (parse_slides md n).length = n
    ∧ parse_slides md n =
        (List.enumFrom 0 ((chunkify md).take n)).filterMap
          (fun p => processChunk p.1 p.2) := by
  refine ⟨?_, parse_slides_eq md n⟩
  rw [parse_slides_eq md n, filterMap_length_of_allOk _ 0 hok, List.length_take]
  omega

/-- Witness for C5: the amended theorem applied to `mdC5` with expected
count 1. -/
theorem c5_witness :
    (parse_slides mdC5 1).length = 1
    ∧ parse_slides mdC5 1 =
        (List.enumFrom 0 ((chunkify mdC5).take 1)).filterMap
          (fun p => processChunk p.1 p.2) :=
  c5_truncates_at_expected mdC5 1 (by decide) (by decide)

/-! ## Substring lemmas for the theme classifier -/

theorem isPrefixOf_iff_ex :
    ∀ (n l : List Char), n.isPrefixOf l = true ↔ ∃ t, l = n ++ t
  | [], l => by simp [List.isPrefixOf]
  | a :: as, [] => by simp [List.isPrefixOf]
  | a :: as, b :: bs => by
    have ih := isPrefixOf_iff_ex as bs
    simp only [List.isPrefixOf, Bool.and_eq_true, beq_iff_eq, ih, List.cons_append,
      List.cons.injEq]
    constructor
    · rintro ⟨rfl, t, rfl⟩; exact ⟨t, rfl, rfl⟩
    · rintro ⟨t, rfl, rfl⟩; exact ⟨rfl, t, rfl⟩

theorem containsSub_iff (n : List Char) :
    ∀ l : List Char, containsSub n l = true ↔ ∃ p s, l = p ++ n ++ s := by
  intro l
  induction l with
  | nil =>
    simp only [containsSub, List.isEmpty_iff]
    constructor
    · rintro rfl; exact ⟨[], [], rfl⟩
    · rintro ⟨p, s, h⟩
      rcases List.append_eq_nil.mp (List.append_eq_nil.mp h.symm).1 with ⟨_, h2⟩
      exact h2
  | cons c t ih =>
    simp only [containsSub, Bool.or_eq_true, isPrefixOf_iff_ex, ih]
    constructor
    · rintro (⟨s, hs⟩ | ⟨p, s, hp⟩)
      · exact ⟨[], s, by simpa using hs⟩
      · exact ⟨c :: p, s, by simp [hp]⟩
    · rintro ⟨p, s, h⟩
      cases p with
      | nil => left; exact ⟨s, by simpa using h⟩
      | cons x xs =>
        right
        simp only [List.cons_append, List.cons.injEq] at h
        exact ⟨xs, s, h.2⟩

theorem containsSub_mono (pre mid suf l : List Char)
    (h : containsSub (pre ++ mid ++ suf) l = true) : containsSub mid l = true := by
  rw [containsSub_iff] at h ⊢
  obtain ⟨p, s, rfl⟩ := h
  exact ⟨p ++ pre, suf ++ s, by simp⟩

/-! ## Claim C7 -/

/-- C7: the expected slide count computed in the main loop
(`expected_slides_main`, src/main.py 666-673) and the slide-count target used
to compose the generation prompt (`slide_count_target`, src/main.py 96-117)
agree for every theme, and both equal the specification's classification:
theme containing "month" (case-insensitive) gives 13 slides, else containing
"class" gives 14, else 13. -/
theorem c7_expected_count_matches_generator (theme : String) :
    expected_slides_main theme = slide_count_target theme
    ∧ slide_count_target theme = classifySpec theme := by
  refine ⟨rfl, ?_⟩
  unfold slide_count_target classifySpec
  by_cases hm : containsSub "month".data (theme.data.map Char.toLower) = true
  · simp [hm]
  · have hbm : ¬ containsSub "birth month".data (theme.data.map Char.toLower) = true := by
      intro hb
      refine hm (containsSub_mono "birth ".data "month".data [] _ ?_)
      have e : "birth ".data ++ "month".data ++ ([] : List Char) = "birth month".data := by
        decide
      rw [e]
      exact hb
    by_cases hc : containsSub "class".data (theme.data.map Char.toLower) = true
    · simp [hm, hbm, hc]
    · have hcs : ¬ containsSub "classes".data (theme.data.map Char.toLower) = true := by
        intro hb
        refine hc (containsSub_mono [] "class".data "es".data _ ?_)
        have e : ([] : List Char) ++ "class".data ++ "es".data = "classes".data := by
          decide
        rw [e]
        exact hb
      simp [hm, hbm, hc, hcs]

/-! ## Claims C3 and C9: `make_image` and its caller -/

theorem getD_of_all {α : Type} (P : α → Prop) :
    ∀ (L : List α) (k : Nat) (d : α), (∀ x ∈ L, P x) → P d → P (L.getD k d)
  | [], k, d, _, hd => by simpa using hd
  | x :: xs, 0, d, h, _ => by simpa using h x (by simp)
  | x :: xs, Nat.succ k, d, h, hd => by
    rw [List.getD_cons_succ]
    exact getD_of_all P xs k d (fun y hy => h y (by simp [hy])) hd

theorem make_image_mem (env : ImgEnv) (theme visual slide_text out_name : String) :
    (pathOrSentinel out_name (make_image env theme visual slide_text out_name).1
      ∨ (make_image env theme visual slide_text out_name).1 = none)
    ∧ (pathOrSentinel out_name (make_image env theme visual slide_text out_name).2
      ∨ (make_image env theme visual slide_text out_name).2 = none) := by
  unfold make_image pathOrSentinel
  by_cases hk : env.apiKey = false
  · rw [if_pos hk]
    by_cases h2 : 2 ≤ env.fancyStage
    · simp [h2]
    · rw [if_neg h2]
      constructor
      · by_cases hv : 1 ≤ env.fancyStage ∨ env.basicV1 = true <;> simp [hv]
      · by_cases hv : env.basicV2 = true <;> simp [hv]
  · rw [if_neg hk]
    cases hapi : env.api with
    | raised => simp
    | ok saves =>
      dsimp only
      set L := saves.enum.map (fun p =>
          if p.2 = true then (if p.1 = 0 then v1Path out_name else v2Path out_name)
          else IMG_GEN_FAILED) with hL
      have hall : ∀ x ∈ L, x = v1Path out_name ∨ x = v2Path out_name ∨ x = IMG_GEN_FAILED := by
        intro x hx
        rw [hL, List.mem_map] at hx
        obtain ⟨p, _, rfl⟩ := hx
        by_cases h1 : p.2 = true <;> by_cases h0 : p.1 = 0 <;> simp [h1, h0]
      have g0 := getD_of_all
        (fun x => x = v1Path out_name ∨ x = v2Path out_name ∨ x = IMG_GEN_FAILED)
        L 0 IMG_GEN_FAILED hall (by simp)
      have g1 := getD_of_all
        (fun x => x = v1Path out_name ∨ x = v2Path out_name ∨ x = IMG_GEN_FAILED)
        L 1 IMG_GEN_FAILED hall (by simp)
      constructor
      · rcases g0 with h | h | h <;> rw [h] <;> simp
      · by_cases hlen : L.length = 1
        · rw [if_pos hlen]; simp
        · rw [if_neg hlen]
          rcases g1 with h | h | h <;> rw [h] <;> simp

/-- C3 (amended): in every configuration `make_image` returns exactly two
values without raising; each value is an image file path, the failure
sentinel, or `None` — and when the API key is present it is always a path or
the sentinel, never `None` (`None` can only arise from the no-key placeholder
branch when rendering fails). -/
theorem c3_make_image_total (env : ImgEnv) (theme visual slide_text out_name : String) :
    (pathOrSentinel out_name (make_image env theme visual slide_text out_name).1
      ∨ (make_image env theme visual slide_text out_name).1 = none)
    ∧ (pathOrSentinel out_name (make_image env theme visual slide_text out_name).2
      ∨ (make_image env theme visual slide_text out_name).2 = none)
    ∧ (env.apiKey = true →
        (make_image env theme visual slide_text out_name).1 ≠ none
        ∧ (make_image env theme visual slide_text out_name).2 ≠ none) := by
  refine ⟨(make_image_mem env theme visual slide_text out_name).1,
    (make_image_mem env theme visual slide_text out_name).2, ?_⟩
  intro hk
  have hk' : ¬ env.apiKey = false := by simp [hk]
  unfold make_image
  rw [if_neg hk']
  cases env.api with
  | raised => simp
  | ok saves => simp

/-- C3 counterexample: with no API key and every placeholder attempt failing,
`make_image` returns `None` for the first slot — a value that is neither an
image file path nor the failure sentinel, contradicting the claim that every
returned value is a path or the sentinel. -/
theorem c3_counterexample :
    (make_image envC3bad "t" "v" "s" "slide").1 = none
    ∧ ¬ pathOrSentinel "slide" (make_image envC3bad "t" "v" "s" "slide").1 := by
  have h1 : (make_image envC3bad "t" "v" "s" "slide").1 = none := by decide
  refine ⟨h1, ?_⟩
  rw [h1]
  simp [pathOrSentinel]

/-- Witness for C3: with the API key present neither slot is `None`. -/
theorem c3_witness :
    envC3ok.apiKey = true
    ∧ (make_image envC3ok "t" "v" "s" "slide").1 ≠ none
    ∧ (make_image envC3ok "t" "v" "s" "slide").2 ≠ none :=
  ⟨rfl, ((c3_make_image_total envC3ok "t" "v" "s" "slide").2.2 rfl).1,
    ((c3_make_image_total envC3ok "t" "v" "s" "slide").2.2 rfl).2⟩

/-! ## Claim C10 -/

/-- C10: with the API key set, a chat-completion call that raises makes
`generate_slides_text` call itself with the same arguments, and the key being
set means the retry hits the service again instead of building placeholder
markdown; against a persistently failing service the recursion never reaches
a base case — unrolled to any fuel depth it still has produced no result. -/
theorem c10_text_retry_diverges (theme host : String) :
    ∀ (fuel attempt : Nat),
      generate_slides_text true (fun _ => none) theme host fuel attempt = none := by
  intro fuel
  induction fuel with
  | zero => intro attempt; rfl
  | succ n ih =>
    intro attempt
    simp only [generate_slides_text, Bool.true_eq_false, if_false]
    exact ih (attempt + 1)

/-! ## Lemmas about the manifest image columns -/

theorem path_head (x s : String) :
    (("images/" ++ x) ++ s).data.head? = some 'i' := by
  rw [String.data_append, String.data_append]
  rfl

theorem imagesPath_ne (x s t : String)
    (ht : t.data.head? = some 'G' ∨ t.data.head? = some 'I') :
    ("images/" ++ x) ++ s ≠ t := by
  intro h
  have h2 : (("images/" ++ x) ++ s).data.head? = t.data.head? := by rw [h]
  rw [path_head] at h2
  rcases ht with ht | ht <;> rw [ht] at h2 <;> exact absurd h2 (by decide)

theorem v1Path_ne_genfail (x : String) : v1Path x ≠ "GENERATION_FAILED" :=
  imagesPath_ne x "_v1.png" "GENERATION_FAILED" (Or.inl rfl)

theorem v2Path_ne_genfail (x : String) : v2Path x ≠ "GENERATION_FAILED" :=
  imagesPath_ne x "_v2.png" "GENERATION_FAILED" (Or.inl rfl)

theorem rowImageField_genfail_iff (out_name : String) (slot : Option String)
    (hs : pathOrSentinel out_name slot ∨ slot = none) :
    rowImageField slot = some "GENERATION_FAILED" ↔ slot = some IMG_GEN_FAILED := by
  unfold rowImageField
  by_cases h : slot = some IMG_GEN_FAILED
  · simp [h]
  · rw [if_neg h]
    constructor
    · intro hg
      rcases hs with (h1 | h1 | h1) | h1
      · rw [h1] at hg
        exact absurd (Option.some.inj hg) (v1Path_ne_genfail out_name)
      · rw [h1] at hg
        exact absurd (Option.some.inj hg) (v2Path_ne_genfail out_name)
      · exact absurd h1 h
      · rw [h1] at hg
        exact absurd hg (by simp)
    · intro hs'
      exact absurd hs' h

theorem slideSlots_mem (env : ThemeEnv) (theme : String) (p : Nat × SlideRec) :
    (pathOrSentinel (filenameBase p.2) (slideSlots env theme p).1
      ∨ (slideSlots env theme p).1 = none)
    ∧ (pathOrSentinel (filenameBase p.2) (slideSlots env theme p).2
      ∨ (slideSlots env theme p).2 = none) := by
  unfold slideSlots
  by_cases hu : (env.slideEnv p.1).unexpectedErr = true
  · rw [if_pos hu]
    simp [pathOrSentinel]
  · rw [if_neg hu]
    exact make_image_mem (env.slideEnv p.1).imgEnv theme p.2.visual_prompt p.2.slide_text
      (filenameBase p.2)

theorem anyFailed_iff_rows (env : ThemeEnv) (theme : String) (slides : List SlideRec) :
    anySlideFailed env theme slides = false ↔
      ∀ r ∈ themeRows env theme slides,
        r.image_file_v1 ≠ some "GENERATION_FAILED"
        ∧ r.image_file_v2 ≠ some "GENERATION_FAILED" := by
  unfold anySlideFailed themeRows
  rw [Bool.eq_false_iff, Ne, List.any_eq_true]
  constructor
  · intro hno r hr
    rw [List.mem_map] at hr
    obtain ⟨p, hp, rfl⟩ := hr
    have hm := slideSlots_mem env theme p
    constructor
    · intro hg
      have h1 : (slideSlots env theme p).1 = some IMG_GEN_FAILED :=
        (rowImageField_genfail_iff (filenameBase p.2) _ hm.1).mp hg
      exact hno ⟨p, hp, by simp [h1]⟩
    · intro hg
      have h2 : (slideSlots env theme p).2 = some IMG_GEN_FAILED :=
        (rowImageField_genfail_iff (filenameBase p.2) _ hm.2).mp hg
      exact hno ⟨p, hp, by simp [h2]⟩
  · rintro hall ⟨p, hp, hbad⟩
    have hr := hall (mkRow theme p.2 (slideSlots env theme p))
      (List.mem_map.mpr ⟨p, hp, rfl⟩)
    have hm := slideSlots_mem env theme p
    rw [Bool.or_eq_true] at hbad
    rcases hbad with h | h
    · rw [decide_eq_true_iff] at h
      exact hr.1 ((rowImageField_genfail_iff (filenameBase p.2) _ hm.1).mpr h)
    · rw [decide_eq_true_iff] at h
      exact hr.2 ((rowImageField_genfail_iff (filenameBase p.2) _ hm.2).mpr h)

theorem processTheme_flag_iff (env : ThemeEnv) (theme : String) :
    (processTheme env theme).1 = true ↔
      ∃ md, env.textGen = some md ∧ md ≠ ""
        ∧ parse_slides md (expected_slides_main theme) ≠ []
        ∧ env.csvOk = true
        ∧ ∀ r ∈ (processTheme env theme).2,
            r.image_file_v1 ≠ some "GENERATION_FAILED"
            ∧ r.image_file_v2 ≠ some "GENERATION_FAILED" := by
  cases htg : env.textGen with
  | none => simp [processTheme, htg]
  | some md =>
    by_cases hmd : md = ""
    · simp [processTheme, htg, hmd]
    · by_cases hps : parse_slides md (expected_slides_main theme) = []
      · simp [processTheme, htg, hmd, hps]
      · have h1 : (processTheme env theme).1 =
            (env.csvOk && !anySlideFailed env theme (parse_slides md (expected_slides_main theme))) := by
          simp [processTheme, htg, hmd, hps]
        have h2 : (processTheme env theme).2 =
            themeRows env theme (parse_slides md (expected_slides_main theme)) := by
          simp [processTheme, htg, hmd, hps]
        rw [h1, h2]
        constructor
        · intro hand
          rw [Bool.and_eq_true, Bool.not_eq_true'] at hand
          exact ⟨md, rfl, hmd, hps, hand.1,
            (anyFailed_iff_rows env theme _).mp hand.2⟩
        · rintro ⟨md', hmd', _, _, hcsv, hrows⟩
          obtain rfl : md = md' := Option.some.inj hmd'
          rw [Bool.and_eq_true, Bool.not_eq_true']
          exact ⟨hcsv, (anyFailed_iff_rows env theme _).mpr hrows⟩

/-! ## Claim C4 -/

/-- C4: a theme is appended to the processed-themes ledger if and only if text
generation produced non-empty markdown, parsing produced at least one record,
the manifest CSV write succeeded, and no image slot of any slide was recorded
with the failure sentinel (written to the manifest as `GENERATION_FAILED`);
any such failure leaves the ledger unchanged. -/
theorem c4_theme_marked_iff (env : ThemeEnv) (theme file : String) :
    themeLedgerAfter env theme file = mark_theme_as_processed file theme ↔
      ∃ md, env.textGen = some md ∧ md ≠ ""
        ∧ parse_slides md (expected_slides_main theme) ≠ []
        ∧ env.csvOk = true
        ∧ ∀ r ∈ (processTheme env theme).2,
            r.image_file_v1 ≠ some "GENERATION_FAILED"
            ∧ r.image_file_v2 ≠ some "GENERATION_FAILED" := by
  have hne : mark_theme_as_processed file theme ≠ file := by
    intro h
    have h2 := congrArg (fun s => s.data.length) h
    simp only [mark_theme_as_processed, String.data_append, List.length_append,
      List.length_cons, List.length_nil] at h2
    omega
  unfold themeLedgerAfter
  by_cases hflag : (processTheme env theme).1 = true
  · rw [if_pos hflag]
    exact ⟨fun _ => (processTheme_flag_iff env theme).mp hflag, fun _ => rfl⟩
  · rw [if_neg hflag]
    constructor
    · intro h
      exact absurd h.symm hne
    · intro hR
      exact absurd ((processTheme_flag_iff env theme).mpr hR) hflag

/-- Witness for C4: a fully successful theme run appends the theme. -/
theorem c4_witness :
    themeLedgerAfter envC4 "Some Theme" "" = mark_theme_as_processed "" "Some Theme" :=
  (c4_theme_marked_iff envC4 "Some Theme" "").mpr
    ⟨mdC5, rfl, by decide, by decide, rfl, by decide⟩

/-! ## Claim C9 -/

/-- C9: when the API key is absent and both the text-rendering and basic
placeholder attempts fail for both variants, `make_image` returns `None` for
each slot rather than the `IMG_GEN_FAILED` sentinel; the caller's sentinel
equality checks therefore register no failure, the manifest rows record the
`None` value instead of `GENERATION_FAILED`, and the theme is still marked
successfully processed. -/
theorem c9_failed_placeholder_is_none :
    make_image envC3bad "t" "v" "s" "n" = (none, none)
    ∧ (none : Option String) ≠ some IMG_GEN_FAILED
    ∧ anySlideFailed envC9 "Some Theme"
        (parse_slides mdC5 (expected_slides_main "Some Theme")) = false
    ∧ (processTheme envC9 "Some Theme").1 = true
    ∧ ∀ r ∈ (processTheme envC9 "Some Theme").2,
        r.image_file_v1 = none ∧ r.image_file_v2 = none := by
  decide

/-! ## Lemmas about `pyStrip` -/

theorem mem_of_mem_dropWhile (p : Char → Bool) :
    ∀ (l : List Char) (x : Char), x ∈ l.dropWhile p → x ∈ l
  | [], x, h => by simp at h
  | c :: t, x, h => by
    rw [List.dropWhile_cons] at h
    by_cases hc : p c = true
    · rw [if_pos hc] at h
      exact List.mem_cons_of_mem c (mem_of_mem_dropWhile p t x h)
    · rw [if_neg hc] at h
      exact h

theorem pyStrip_mem_sub (l : List Char) (x : Char) (h : x ∈ pyStrip l) : x ∈ l := by
  unfold pyStrip at h
  rw [List.mem_reverse] at h
  have h2 := mem_of_mem_dropWhile isPyWs _ x h
  rw [List.mem_reverse] at h2
  exact mem_of_mem_dropWhile isPyWs l x h2

theorem dropWhile_dropWhile (p : Char → Bool) :
    ∀ l : List Char, (l.dropWhile p).dropWhile p = l.dropWhile p
  | [] => rfl
  | c :: t => by
    rw [List.dropWhile_cons]
    by_cases h : p c = true
    · rw [if_pos h]
      exact dropWhile_dropWhile p t
    · rw [if_neg h, List.dropWhile_cons, if_neg h]

theorem head?_dropWhile_false (p : Char → Bool) :
    ∀ (l : List Char) (c : Char), (l.dropWhile p).head? = some c → p c = false
  | [], c => by simp
  | a :: t, c => by
    rw [List.dropWhile_cons]
    by_cases h : p a = true
    · rw [if_pos h]
      exact head?_dropWhile_false p t c
    · rw [if_neg h]
      intro hh
      rw [List.head?_cons] at hh
      obtain rfl := Option.some.inj hh
      exact Bool.eq_false_iff.mpr h

theorem dropWhile_eq_self_of_head? (p : Char → Bool) (l : List Char)
    (h : ∀ c, l.head? = some c → p c = false) : l.dropWhile p = l := by
  cases l with
  | nil => rfl
  | cons a t =>
    rw [List.dropWhile_cons, if_neg]
    simp [h a rfl]

theorem getLast?_dropWhile (p : Char → Bool) :
    ∀ l : List Char, l.dropWhile p ≠ [] → (l.dropWhile p).getLast? = l.getLast?
  | [], h => absurd rfl h
  | a :: t, h => by
    rw [List.dropWhile_cons] at h ⊢
    by_cases hp : p a = true
    · rw [if_pos hp] at h ⊢
      cases t with
      | nil => exact absurd rfl h
      | cons b t' =>
        rw [getLast?_dropWhile p (b :: t') h, List.getLast?_cons_cons]
    · rw [if_neg hp]

theorem pyStrip_idem (l : List Char) : pyStrip (pyStrip l) = pyStrip l := by
  unfold pyStrip
  set l1 := l.dropWhile isPyWs with hl1
  set A := l1.reverse.dropWhile isPyWs with hA
  have h1 : A.reverse.dropWhile isPyWs = A.reverse := by
    apply dropWhile_eq_self_of_head?
    intro c hc
    rw [List.head?_reverse] at hc
    have hAne : A ≠ [] := by
      intro h0
      rw [h0] at hc
      simp at hc
    rw [hA] at hc hAne
    rw [getLast?_dropWhile isPyWs l1.reverse hAne, List.getLast?_reverse] at hc
    rw [hl1] at hc
    exact head?_dropWhile_false isPyWs l c hc
  rw [h1, List.reverse_reverse, hA, dropWhile_dropWhile]

/-! ## Lemmas about `splitNL` and the ledger file -/

theorem splitNL_cons_nl (l : List Char) : splitNL ('\n' :: l) = [] :: splitNL l := by
  simp [splitNL]

theorem splitNL_cons_crnl (l : List Char) :
    splitNL ('\r' :: '\n' :: l) = [] :: splitNL l := by
  simp [splitNL]

theorem splitNL_cons_cr (l : List Char) (h : l.head? ≠ some '\n') :
    splitNL ('\r' :: l) = [] :: splitNL l := by
  cases l with
  | nil => rfl
  | cons x xs =>
    have hx : ¬ x = '\n' := by
      intro e
      rw [List.head?_cons, e] at h
      exact h rfl
    simp [splitNL, hx]

theorem splitNL_cons_other (c : Char) (l : List Char) (a : List Char) (as : List (List Char))
    (hc1 : ¬ c = '\n') (hc2 : ¬ c = '\r') (hs : splitNL l = a :: as) :
    splitNL (c :: l) = (c :: a) :: as := by
  simp [splitNL, hc1, hc2, hs]

theorem splitNL_ne_nil : ∀ l : List Char, splitNL l ≠ []
  | [] => by simp [splitNL]
  | c :: rest => by
    by_cases hcr : c = '\r'
    · subst hcr
      cases rest with
      | nil => simp [splitNL]
      | cons x xs =>
        by_cases hx : x = '\n' <;> simp [splitNL, hx]
    · by_cases hc : c = '\n'
      · subst hc
        rw [splitNL_cons_nl]
        simp
      · cases hs : splitNL rest with
        | nil => exact absurd hs (splitNL_ne_nil rest)
        | cons a as =>
          rw [splitNL_cons_other c rest a as hc hcr hs]
          simp

theorem two_le_splitNL_length :
    ∀ l : List Char, '\n' ∈ l → 2 ≤ (splitNL l).length
  | c :: rest, h => by
    have h1 : splitNL rest ≠ [] := splitNL_ne_nil rest
    have h2 : 1 ≤ (splitNL rest).length := List.length_pos.mpr h1
    by_cases hcr : c = '\r'
    · subst hcr
      cases rest with
      | nil => simp at h
      | cons x xs =>
        by_cases hx : x = '\n'
        · subst hx
          rw [splitNL_cons_crnl]
          have := List.length_pos.mpr (splitNL_ne_nil xs)
          simp only [List.length_cons]
          omega
        · rw [splitNL_cons_cr (x :: xs) (by simp [hx])]
          simp only [List.length_cons]
          omega
    · by_cases hc : c = '\n'
      · subst hc
        rw [splitNL_cons_nl]
        simp only [List.length_cons]
        omega
      · have hr : '\n' ∈ rest := by
          rcases List.mem_cons.mp h with h | h
          · exact absurd h.symm hc
          · exact h
        have ih := two_le_splitNL_length rest hr
        cases hs : splitNL rest with
        | nil => exact absurd hs h1
        | cons a as =>
          rw [hs] at ih
          rw [splitNL_cons_other c rest a as hc hcr hs]
          simp only [List.length_cons] at ih ⊢
          omega

theorem splitNL_line_nil :
    ∀ t : List Char, '\n' ∉ t → '\r' ∉ t → splitNL (t ++ ['\n']) = [t, []]
  | [], _, _ => by simp [splitNL]
  | c :: t, h, hr => by
    have hc : ¬ c = '\n' := by
      intro e
      exact h (by simp [e])
    have hcr : ¬ c = '\r' := by
      intro e
      exact hr (by simp [e])
    have ih := splitNL_line_nil t (fun m => h (List.mem_cons_of_mem c m))
      (fun m => hr (List.mem_cons_of_mem c m))
    rw [List.cons_append, splitNL_cons_other c _ _ _ hc hcr ih]

theorem splitNL_mark :
    ∀ (xs t : List Char), (xs = [] ∨ ∃ f0, xs = f0 ++ ['\n']) →
      '\n' ∉ t → '\r' ∉ t →
      splitNL (xs ++ (t ++ ['\n'])) = (splitNL xs).dropLast ++ [t, []]
  | [], t, _, ht, htr => by
    simp [splitNL, splitNL_line_nil t ht htr]
  | c :: xs', t, hends, ht, htr => by
    rcases hends with h | ⟨f0, hf⟩
    · exact absurd h (by simp)
    cases xs' with
    | nil =>
      have hc : c = '\n' := by
        cases f0 with
        | nil => simpa using hf
        | cons a f0' =>
          have := congrArg List.length hf
          simp at this
      subst hc
      simp [splitNL, splitNL_line_nil t ht htr]
    | cons b xs'' =>
      have hends' : b :: xs'' = [] ∨ ∃ g0, b :: xs'' = g0 ++ ['\n'] := by
        right
        cases f0 with
        | nil => simpa using congrArg List.length hf
        | cons a f0' =>
          rw [List.cons_append] at hf
          exact ⟨f0', (List.cons.injEq .. ▸ hf).2⟩
      have ih := splitNL_mark (b :: xs'') t hends' ht htr
      have hnl : '\n' ∈ b :: xs'' := by
        obtain ⟨g0, hg⟩ := hends'.resolve_left (by simp)
        rw [hg]
        simp
      have hlen := two_le_splitNL_length (b :: xs'') hnl
      have hSne := splitNL_ne_nil (b :: xs'')
      by_cases hc : c = '\n'
      · subst hc
        cases hs : splitNL (b :: xs'') with
        | nil => exact absurd hs hSne
        | cons s0 S1 =>
          rw [List.cons_append, splitNL_cons_nl, ih, splitNL_cons_nl]
          simp [hs, List.dropLast_cons₂]
      · by_cases hcr : c = '\r'
        · subst hcr
          by_cases hb : b = '\n'
          · subst hb
            -- the '\r' pairs with the following '\n' into a single terminator
            have hS'' := splitNL_ne_nil xs''
            cases hs : splitNL xs'' with
            | nil => exact absurd hs hS''
            | cons u U =>
              have ih2 : splitNL (xs'' ++ (t ++ ['\n'])) = (u :: U).dropLast ++ [t, []] := by
                rw [List.cons_append, splitNL_cons_nl, splitNL_cons_nl, hs] at ih
                simpa [List.dropLast_cons₂, List.cons_append] using ih
              rw [List.cons_append, List.cons_append, splitNL_cons_crnl, ih2,
                splitNL_cons_crnl, hs]
              simp [List.dropLast_cons₂]
          · cases hs : splitNL (b :: xs'') with
            | nil => exact absurd hs hSne
            | cons s0 S1 =>
              have hhead : (b :: (xs'' ++ (t ++ ['\n']))).head? ≠ some '\n' := by
                simp [hb]
              have hhead2 : (b :: xs'').head? ≠ some '\n' := by
                simp [hb]
              rw [List.cons_append, List.cons_append, splitNL_cons_cr _ hhead,
                ← List.cons_append, ih, splitNL_cons_cr _ hhead2, hs]
              simp [List.dropLast_cons₂, hs]
        · cases hs : splitNL (b :: xs'') with
          | nil => exact absurd hs hSne
          | cons s0 S1 =>
            cases S1 with
            | nil =>
              rw [hs] at hlen
              simp at hlen
            | cons s1 S2 =>
              have ih' : splitNL (b :: xs'' ++ (t ++ ['\n']))
                  = s0 :: ((s1 :: S2).dropLast ++ [t, []]) := by
                rw [ih, hs, List.dropLast_cons₂, List.cons_append]
              rw [List.cons_append, splitNL_cons_other c _ _ _ hc hcr ih',
                splitNL_cons_other c _ _ _ hc hcr hs, List.dropLast_cons₂,
                List.cons_append]

theorem splitNL_endsNL_last :
    ∀ ys : List Char, ∃ M, splitNL (ys ++ ['\n']) = M ++ [[]]
  | [] => ⟨[[]], by simp [splitNL]⟩
  | c :: ys => by
    obtain ⟨M, hM⟩ := splitNL_endsNL_last ys
    by_cases hc : c = '\n'
    · refine ⟨[] :: M, ?_⟩
      subst hc
      rw [List.cons_append, splitNL_cons_nl, hM, List.cons_append]
    · by_cases hcr : c = '\r'
      · subst hcr
        cases ys with
        | nil => exact ⟨[[]], by simp [splitNL]⟩
        | cons b ys' =>
          by_cases hb : b = '\n'
          · subst hb
            -- '\r' merges with the next '\n'; peel one layer off the IH
            rw [List.cons_append, splitNL_cons_nl] at hM
            cases M with
            | nil =>
              exact absurd ((List.cons.injEq .. ▸ hM.symm).2.symm)
                (splitNL_ne_nil (ys' ++ ['\n']))
            | cons m M' =>
              refine ⟨[] :: M', ?_⟩
              rw [List.cons_append, List.cons_append, splitNL_cons_crnl]
              rw [List.cons_append] at hM
              exact (List.cons.injEq .. ▸ hM).2 ▸ rfl
          · refine ⟨[] :: M, ?_⟩
            have hhead : (b :: (ys' ++ ['\n'])).head? ≠ some '\n' := by
              simp [hb]
            rw [List.cons_append, List.cons_append, splitNL_cons_cr _ hhead,
              ← List.cons_append, hM, List.cons_append]
      · have hnl : '\n' ∈ ys ++ ['\n'] := by simp
        have hlen := two_le_splitNL_length (ys ++ ['\n']) hnl
        cases M with
        | nil =>
          rw [hM] at hlen
          simp at hlen
        | cons m M' =>
          refine ⟨(c :: m) :: M', ?_⟩
          rw [List.cons_append, splitNL_cons_other c _ _ _ hc hcr (by rw [hM]; rfl),
            List.cons_append]
          rfl

/-- Newline-terminated (or empty) files end in an empty final segment. -/
theorem splitNL_ends_empty (file : String)
    (hfile : file.data = [] ∨ ∃ f0, file.data = f0 ++ ['\n']) :
    ∃ M, splitNL file.data = M ++ [[]] := by
  rcases hfile with h | ⟨f0, h⟩
  · exact ⟨[], by simp [h, splitNL]⟩
  · rw [h]
    exact splitNL_endsNL_last f0

theorem mk_data_eq (s : String) : String.mk s.data = s := by
  cases s
  rfl

theorem mark_data (file t : String) :
    (mark_theme_as_processed file t).data = file.data ++ (t.data ++ ['\n']) := by
  unfold mark_theme_as_processed
  rw [String.data_append, String.data_append, List.append_assoc]

theorem mark_endsNL (file t : String) :
    (mark_theme_as_processed file t).data = [] ∨
      ∃ f0, (mark_theme_as_processed file t).data = f0 ++ ['\n'] := by
  right
  refine ⟨file.data ++ t.data, ?_⟩
  rw [mark_data, List.append_assoc]

theorem load_mark_lines (file t : String)
    (hfile : file.data = [] ∨ ∃ f0, file.data = f0 ++ ['\n'])
    (ht : '\n' ∉ t.data) (htr : '\r' ∉ t.data) :
    splitNL (mark_theme_as_processed file t).data
      = (splitNL file.data).dropLast ++ [t.data, []] := by
  rw [mark_data, splitNL_mark file.data t.data hfile ht htr]

theorem load_mark_preserves (file t : String)
    (hfile : file.data = [] ∨ ∃ f0, file.data = f0 ++ ['\n'])
    (ht : '\n' ∉ t.data) (htr : '\r' ∉ t.data) (u : String)
    (hu : u ∈ load_processed_themes file) (hne : u ≠ "") :
    u ∈ load_processed_themes (mark_theme_as_processed file t) := by
  obtain ⟨M, hM⟩ := splitNL_ends_empty file hfile
  unfold load_processed_themes at hu ⊢
  rw [load_mark_lines file t hfile ht htr, hM, List.dropLast_concat]
  rw [List.mem_map] at hu ⊢
  obtain ⟨l, hl, rfl⟩ := hu
  rw [hM, List.mem_append, List.mem_singleton] at hl
  rcases hl with hl | rfl
  · exact ⟨l, List.mem_append.mpr (Or.inl hl), rfl⟩
  · exact absurd rfl hne

theorem load_mark_self (file t : String)
    (hfile : file.data = [] ∨ ∃ f0, file.data = f0 ++ ['\n'])
    (ht : '\n' ∉ t.data) (htr : '\r' ∉ t.data) (hfix : pyStrip t.data = t.data) :
    t ∈ load_processed_themes (mark_theme_as_processed file t) := by
  unfold load_processed_themes
  rw [load_mark_lines file t hfile ht htr, List.mem_map]
  refine ⟨t.data, by simp, ?_⟩
  rw [hfix]

theorem markAll_load :
    ∀ (ts : List String) (file : String),
      (file.data = [] ∨ ∃ f0, file.data = f0 ++ ['\n']) →
      (∀ t ∈ ts, '\n' ∉ t.data ∧ '\r' ∉ t.data ∧ pyStrip t.data = t.data ∧ t ≠ "") →
      (∀ u ∈ load_processed_themes file, u ≠ "" →
        u ∈ load_processed_themes (markAll file ts))
      ∧ (∀ t ∈ ts, t ∈ load_processed_themes (markAll file ts))
  | [], file, _, _ => by
    constructor
    · intro u hu _
      exact hu
    · intro t ht
      exact absurd ht (by simp)
  | t :: ts', file, hfile, hts => by
    obtain ⟨htn, htnr, htfix, htne⟩ := hts t (by simp)
    have hts' : ∀ s ∈ ts', '\n' ∉ s.data ∧ '\r' ∉ s.data ∧ pyStrip s.data = s.data ∧ s ≠ "" :=
      fun s hs => hts s (List.mem_cons_of_mem t hs)
    have ih := markAll_load ts' (mark_theme_as_processed file t) (mark_endsNL file t) hts'
    constructor
    · intro u hu hune
      exact ih.1 u (load_mark_preserves file t hfile htn htnr u hu hune) hune
    · intro s hs
      rcases List.mem_cons.mp hs with rfl | hs'
      · exact ih.1 s (load_mark_self file s hfile htn htnr htfix) htne
      · exact ih.2 s hs'

theorem csvThemes_props (rows : List String)
    (hrows : ∀ s ∈ rows, '\n' ∉ s.data ∧ '\r' ∉ s.data) :
    ∀ t ∈ csvThemes rows, '\n' ∉ t.data ∧ '\r' ∉ t.data ∧ pyStrip t.data = t.data ∧ t ≠ "" := by
  intro t ht
  unfold csvThemes at ht
  rw [List.mem_filter] at ht
  obtain ⟨htm, htne⟩ := ht
  rw [List.mem_map] at htm
  obtain ⟨s, hs, rfl⟩ := htm
  refine ⟨?_, ?_, ?_, by simpa using htne⟩
  · intro hmem
    exact (hrows s hs).1 (pyStrip_mem_sub s.data '\n' hmem)
  · intro hmem
    exact (hrows s hs).2 (pyStrip_mem_sub s.data '\r' hmem)
  · show pyStrip (pyStrip s.data) = pyStrip s.data
    exact pyStrip_idem s.data

/-! ## Claim C8 -/

/-- C8 (amended): if every trimmed theme of the input manifest is already in
the loaded ledger, the batch selects zero themes.  Moreover, after a fully
successful run that marks every selected theme, a second run with the same
manifest and the resulting ledger selects zero themes — provided no theme
contains a newline or carriage-return character (both are line terminators
under the universal-newlines read of the ledger, so such themes cannot
round-trip) and the initial ledger file is empty or newline-terminated. -/
theorem c8_ledger_idempotent :
    (∀ (rows : List String) (file : String),
        (∀ t ∈ csvThemes rows, t ∈ load_processed_themes file) →
        selectThemes rows (load_processed_themes file) = [])
    ∧ (∀ (rows : List String) (file : String),
        (∀ s ∈ rows, '\n' ∉ s.data ∧ '\r' ∉ s.data) →
        (file.data = [] ∨ ∃ f0, file.data = f0 ++ ['\n']) →
        selectThemes rows (load_processed_themes
          (markAll file (selectThemes rows (load_processed_themes file)))) = []) := by
  constructor
  · intro rows file hall
    unfold selectThemes
    rw [List.filter_eq_nil_iff]
    intro t ht
    simp [hall t ht]
  · intro rows file hrows hfile
    have hprops : ∀ t ∈ selectThemes rows (load_processed_themes file),
        '\n' ∉ t.data ∧ '\r' ∉ t.data ∧ pyStrip t.data = t.data ∧ t ≠ "" := by
      intro t htm
      exact csvThemes_props rows hrows t (List.mem_of_mem_filter htm)
    have hml := markAll_load (selectThemes rows (load_processed_themes file)) file hfile hprops
    conv_lhs => rw [selectThemes]
    rw [List.filter_eq_nil_iff]
    intro t ht
    have htprops := csvThemes_props rows hrows t ht
    have hmem : t ∈ load_processed_themes
        (markAll file (selectThemes rows (load_processed_themes file))) := by
      by_cases hts : t ∈ selectThemes rows (load_processed_themes file)
      · exact hml.2 t hts
      · have hold : t ∈ load_processed_themes file := by
          by_contra hno
          exact hts (List.mem_filter.mpr ⟨ht, by simpa using hno⟩)
        exact hml.1 t hold htprops.2.2.2
    simp [hmem]

/-- C8 counterexample: a theme containing a newline — and likewise one
containing a bare carriage return, which the universal-newlines read of the
ledger also treats as a line terminator — is selected, processed and marked,
yet the second run selects it again: the ledger splits it into two lines, so
idempotence fails as universally stated. -/
theorem c8_counterexample :
    (selectThemes ["a\nb"] (load_processed_themes "") = ["a\nb"]
      ∧ markAll "" (selectThemes ["a\nb"] (load_processed_themes "")) = "a\nb\n"
      ∧ selectThemes ["a\nb"]
          (load_processed_themes (markAll "" (selectThemes ["a\nb"]
            (load_processed_themes "")))) = ["a\nb"])
    ∧ (selectThemes ["a\rb"] (load_processed_themes "") = ["a\rb"]
      ∧ markAll "" (selectThemes ["a\rb"] (load_processed_themes "")) = "a\rb\n"
      ∧ selectThemes ["a\rb"]
          (load_processed_themes (markAll "" (selectThemes ["a\rb"]
            (load_processed_themes "")))) = ["a\rb"]) := by
  decide

/-- Witness for C8: both parts of the amended claim at concrete inputs. -/
theorem c8_witness :
    selectThemes ["Theme A"] (load_processed_themes "Theme A\n") = []
    ∧ selectThemes ["Theme A", "Theme B"]
        (load_processed_themes (markAll "Theme A\n"
          (selectThemes ["Theme A", "Theme B"]
            (load_processed_themes "Theme A\n")))) = [] :=
  ⟨c8_ledger_idempotent.1 ["Theme A"] "Theme A\n" (by decide),
   c8_ledger_idempotent.2 ["Theme A", "Theme B"] "Theme A\n" (by decide)
     (Or.inr ⟨"Theme A".data, by decide⟩)⟩

end DndPipeline
